import Mathlib

/-!
Verification of the seraphim repository: a shallow embedding of its
document parser (`parseBrandName`, `parseMarkdownContent`, `searchModels`,
from src/unnamed/part_000), the global search handler (`handleSearch`,
from src/app/page.tsx), and the two-tier cache (`CacheManager`, from
src/unnamed/part_001 and src/unnamed/part_002), together with theorems
settling the specification's claims about them.

Modelling conventions:
- JavaScript strings are Lean `String` / `List Char`; the handful of
  JavaScript string methods the source uses (`trim`, `split`,
  `startsWith`, `endsWith`, `toLowerCase`, `includes`, first-occurrence
  `replace`, `slice`) are embedded one-by-one below over `List Char`.
- `Date.now()` timestamps are an explicit `now : Int` argument.
- `localStorage` is an explicit association list in the cache state;
  JSON serialisation of a cache item round-trips and is modelled as the
  identity, and storage writes are modelled as succeeding (the source
  wraps them in try/catch and the claims all concern the successful path).
- `console.log` / `console.warn` calls are omitted: they do not affect
  any observable value or state.
-/

/-- JavaScript whitespace test for the ASCII range: the characters matched
by the `\s` regular-expression class and trimmed by `String.prototype.trim`
(space, tab, line feed, carriage return, vertical tab, form feed). -/
def jsIsWs (c : Char) : Bool :=
  c == ' ' || c == '\t' || c == '\n' || c == '\r' ||
  c == Char.ofNat 11 || c == Char.ofNat 12

/-- JavaScript `String.prototype.trim` on a character list. -/
def jsTrimList (l : List Char) : List Char :=
  ((l.dropWhile jsIsWs).reverse.dropWhile jsIsWs).reverse

/-- JavaScript `String.prototype.trim`. -/
def jsTrim (s : String) : String :=
  String.mk (jsTrimList s.data)

/-- JavaScript `String.prototype.startsWith`. -/
def jsStartsWith (s pat : String) : Bool :=
  pat.data.isPrefixOf s.data

/-- JavaScript `String.prototype.endsWith`. -/
def jsEndsWith (s pat : String) : Bool :=
  pat.data.isSuffixOf s.data

/-- JavaScript `String.prototype.toLowerCase` (ASCII range). -/
def jsToLower (s : String) : String :=
  String.mk (s.data.map Char.toLower)

/-- Substring test on character lists (the needle is the first argument). -/
def listIsInfix (needle : List Char) : List Char → Bool
  | [] => needle.isEmpty
  | c :: t => needle.isPrefixOf (c :: t) || listIsInfix needle t

/-- JavaScript `String.prototype.includes`: `jsIncludes s sub` is true when
`sub` occurs as a contiguous substring of `s`. -/
def jsIncludes (s sub : String) : Bool :=
  listIsInfix sub.data s.data

/-- JavaScript `String.prototype.split` on a character predicate: splits at
every separator character, keeping empty pieces, as `"a__b".split(/[-_\s]/)`
yields `["a", "", "b"]`. -/
def splitOnPred (p : Char → Bool) : List Char → List (List Char)
  | [] => [[]]
  | c :: t =>
    let r := splitOnPred p t
    if p c then [] :: r
    else
      match r with
      | [] => [[c]]
      | w :: ws => (c :: w) :: ws

/-- JavaScript `str.replace(pat, "")` with a string pattern: removes the
first (leftmost) occurrence of `pat`, or returns the string unchanged when
`pat` does not occur.  Every `replace` call in the source has `""` as the
replacement, so only that case is embedded. -/
def replaceFirst (pat : List Char) : List Char → List Char
  | [] => []
  | c :: t =>
    if pat.isPrefixOf (c :: t) then (c :: t).drop pat.length
    else c :: replaceFirst pat t

/-! ## NameCodec: `parseBrandName` (src/unnamed/part_000 lines 3-45) -/

/-- The record returned by `parseBrandName` in the source
(`{ name, slug }`); the spec calls it `BrandIdentity`. -/
structure BrandIdentity where
  name : String
  slug : String
deriving DecidableEq

/-- Separator class `[-_\s]` used by `capitalizeWords`. -/
def isSepChar (c : Char) : Bool :=
  c == '-' || c == '_' || jsIsWs c

/-- One word of `capitalizeWords`:
`word.charAt(0).toUpperCase() + word.slice(1).toLowerCase()`. -/
def capWord : List Char → List Char
  | [] => []
  | c :: t => c.toUpper :: t.map Char.toLower

/-- `capitalizeWords` (src/unnamed/part_000 lines 40-45): split the string
on `-`, `_` or whitespace, capitalise each token, join with single spaces. -/
def capitalizeWords (str : String) : String :=
  String.mk (List.intercalate [' '] ((splitOnPred isSepChar str.data).map capWord))

/-- `parseBrandName` (src/unnamed/part_000 lines 3-38): remove the first
occurrence of `".md"`, then test the regional suffixes `_cn`,
`_global_en`, `_en`, `_all` in source order; each branch strips the first
occurrence of the suffix from the display-name base only, while the slug
is always the cleaned filename. -/
def parseBrandName (filename : String) : BrandIdentity :=
  let cleanName := String.mk (replaceFirst ".md".data filename.data)
  if jsEndsWith cleanName "_cn" then
    ⟨capitalizeWords (String.mk (replaceFirst "_cn".data cleanName.data)) ++ " (China)",
     cleanName⟩
  else if jsEndsWith cleanName "_global_en" then
    ⟨capitalizeWords (String.mk (replaceFirst "_global_en".data cleanName.data)) ++ " (Global)",
     cleanName⟩
  else if jsEndsWith cleanName "_en" then
    ⟨capitalizeWords (String.mk (replaceFirst "_en".data cleanName.data)) ++ " (English)",
     cleanName⟩
  else if jsEndsWith cleanName "_all" then
    ⟨capitalizeWords (String.mk (replaceFirst "_all".data cleanName.data)),
     cleanName⟩
  else
    ⟨capitalizeWords cleanName, cleanName⟩

/-! ## DocumentParser: `parseMarkdownContent` (src/unnamed/part_000 lines 47-122) -/

/-- `PhoneVariant` of `@/types/phone-models`, as produced by the parser. -/
structure PhoneVariant where
  modelNumber : String
  variantName : String
deriving DecidableEq

/-- `PhoneModel` of `@/types/phone-models`, as produced by the parser. -/
structure PhoneModel where
  mainModelName : String
  codename : Option String
  variants : List PhoneVariant
  series : Option String
deriving DecidableEq

/-- The model-heading regex `^\[([^\]]+)\]\s*(.*)` (src/unnamed/part_000
line 70), returning the two capture groups: a nonempty codename between the
brackets, and the text after the closing bracket with the `\s*` run
consumed. -/
def codenameBracketMatch (l : List Char) : Option (List Char × List Char) :=
  match l with
  | '[' :: t =>
    let u := t.takeWhile (fun c => !(c == ']'))
    let v := t.dropWhile (fun c => !(c == ']'))
    match u, v with
    | [], _ => none
    | _, ']' :: rest => some (u, rest.dropWhile jsIsWs)
    | _, _ => none
  | _ => none

/-- The source regex `^$$([^)]+)$$\s*(.*)` (src/unnamed/part_000 line 71).
In a JavaScript regular expression `$` is an end-of-input anchor, not a
literal parenthesis (the pattern is a lossy-transport garbling of an
intended `^\(([^)]+)\)...`), so after `^$$` asserts the position is the end
of the input, the mandatory `[^)]+` can never consume a character: the
pattern matches no string at all and `match` returns null for every input. -/
def codenameParenMatch (_l : List Char) : Option (List Char × List Char) :=
  none

/-- Opening class `[[$$]` of the strip regex (src/unnamed/part_000 line 82):
the characters `[` and `$`. -/
def isOpenStrip (c : Char) : Bool :=
  c == '[' || c == '$'

/-- Body class `[^\]$$]` of the strip regex: anything but `]` and `$`. -/
def isBodyStrip (c : Char) : Bool :=
  !(c == ']') && !(c == '$')

/-- Suffix of `u` strictly after its last `)`, or `none` when `u` has no
`)`; used to embed the backtracking step of the strip regex. -/
def afterLastParen : List Char → Option (List Char)
  | [] => none
  | c :: t =>
    match afterLastParen t with
    | some r => some r
    | none => if c == ')' then some t else none

/-- One match attempt of the strip regex `\s*[[$$][^\]$$]*[\])]\s*`
(src/unnamed/part_000 line 82) at the head of `s`, returning the remainder
after the match when it succeeds.  `\s*` greedily consumes whitespace (and
cannot usefully backtrack, since `[` and `$` are not whitespace); `[[$$]`
must match the next character; `[^\]$$]*` greedily consumes to the first
`]` or `$`; `[\])]` then matches a `]` there, or on failure the engine
backtracks to the last `)` inside the consumed run (its characters are
never `]` or `$`); the final `\s*` consumes trailing whitespace into the
match. -/
def matchStripAt (s : List Char) : Option (List Char) :=
  match s.dropWhile jsIsWs with
  | [] => none
  | c :: t =>
    if isOpenStrip c then
      let u := t.takeWhile isBodyStrip
      let v := t.dropWhile isBodyStrip
      match v with
      | ']' :: rest => some (rest.dropWhile jsIsWs)
      | _ =>
        match afterLastParen u with
        | some after => some ((after ++ v).dropWhile jsIsWs)
        | none => none
    else none

/-- Global (`g`-flag) replacement of every strip-regex match by the empty
string, scanning left to right.  The fuel argument only bounds recursion
depth: each step either consumes one unmatched character or a match of at
least two characters, so fuel equal to the string length (as supplied by
`stripBrackets`) is always sufficient. -/
def stripLoop : Nat → List Char → List Char
  | 0, s => s
  | _ + 1, [] => []
  | fuel + 1, c :: t =>
    match matchStripAt (c :: t) with
    | some rest => stripLoop fuel rest
    | none => c :: stripLoop fuel t

/-- `mainModelName.replace(/\s*[[$$][^\]$$]*[\])]\s*/g, "")`
(src/unnamed/part_000 line 82). -/
def stripBrackets (s : List Char) : List Char :=
  stripLoop s.length s

/-- The variant regex `` ^`([^`]+)`:\s*(.*) `` (src/unnamed/part_000
line 97): a backtick, a nonempty run of non-backticks, a backtick, a colon,
skipped whitespace, then the rest as the second group. -/
def variantMatch (l : List Char) : Option (List Char × List Char) :=
  match l with
  | '`' :: t =>
    let u := t.takeWhile (fun c => !(c == '`'))
    let v := t.dropWhile (fun c => !(c == '`'))
    match u, v with
    | [], _ => none
    | _, '`' :: ':' :: rest => some (u, rest.dropWhile jsIsWs)
    | _, _ => none
  | _ => none

/-- Termination test of the inner variant loop (src/unnamed/part_000
line 92), applied to the trimmed line. -/
def isVariantStop (line : String) : Bool :=
  jsStartsWith line "**" || jsStartsWith line "##" || jsStartsWith line "#"

/-- The inner `while` loop of `parseMarkdownContent` (src/unnamed/part_000
lines 85-106): collect variant lines until a heading line or end of input,
returning the variants together with the unconsumed lines (starting with
the terminating line, matching `i = j - 1` followed by `i++` in the
source). -/
def collectVariants : List String → List PhoneVariant × List String
  | [] => ([], [])
  | l :: ls =>
    let variantLine := jsTrim l
    if isVariantStop variantLine then ([], l :: ls)
    else
      match variantMatch variantLine.data with
      | some (num, rest) =>
        let pr := collectVariants ls
        (⟨String.mk num, jsTrim (String.mk rest)⟩ :: pr.1, pr.2)
      | none => collectVariants ls

/-- The unconsumed-lines component of `collectVariants` never grows, so a
fuel of `lines.length` suffices for `parseLoop` below. -/
theorem collectVariants_rest_le : ∀ ls : List String,
    (collectVariants ls).2.length ≤ ls.length := by
  intro ls
  induction ls with
  | nil => simp [collectVariants]
  | cons l t ih =>
    simp only [collectVariants]
    split
    · simp
    · split
      · simpa using Nat.le_succ_of_le ih
      · exact Nat.le_succ_of_le ih

/-- The outer `for` loop of `parseMarkdownContent` (src/unnamed/part_000
lines 52-119), one step per remaining line, threading the current series.
The fuel argument only bounds recursion depth: every recursive call passes
a strictly shorter line list (`collectVariants_rest_le`), so fuel equal to
the number of lines (as supplied by `parseMarkdownContent`) is always
sufficient. -/
def parseLoop : Nat → List String → Option String → List PhoneModel
  | 0, _, _ => []
  | _ + 1, [], _ => []
  | fuel + 1, l :: ls, currentSeries =>
    let line := jsTrim l
    if jsStartsWith line "## " then
      parseLoop fuel ls (some (jsTrim (String.mk (replaceFirst "## ".data line.data))))
    else if jsStartsWith line "**" && jsEndsWith line ":**" then
      let modelLine := (line.data.drop 2).take (line.data.length - 5)
      let cm :=
        match codenameBracketMatch modelLine with
        | some (cn, rest) => (some (String.mk cn), jsTrimList rest)
        | none =>
          match codenameParenMatch modelLine with
          | some (cn, rest) => (some (String.mk cn), jsTrimList rest)
          | none => ((none : Option String), modelLine)
      let mainModelName := jsTrim (String.mk (stripBrackets cm.2))
      let vr := collectVariants ls
      let rest := parseLoop fuel vr.2 currentSeries
      if vr.1.length > 0 then
        ⟨mainModelName, cm.1, vr.1, currentSeries⟩ :: rest
      else rest
    else parseLoop fuel ls currentSeries

/-- `parseMarkdownContent` (src/unnamed/part_000 lines 47-122):
`content.split("\n")`, then the line-by-line state machine. -/
def parseMarkdownContent (content : String) : List PhoneModel :=
  let lines := (splitOnPred (fun c => c == '\n') content.data).map String.mk
  parseLoop lines.length lines none

/-! ## SearchIndex: `searchModels` (src/unnamed/part_000 lines 124-143) -/

/-- `searchModels`: identity on a whitespace-only query, otherwise the
case-folded substring filter over `mainModelName`, `codename` (when
present), and every variant's `modelNumber` and `variantName`. -/
def searchModels (models : List PhoneModel) (query : String) : List PhoneModel :=
  if jsTrim query = "" then models
  else
    models.filter fun model =>
      jsIncludes (jsToLower model.mainModelName) (jsToLower query) ||
      (match model.codename with
       | some cn => jsIncludes (jsToLower cn) (jsToLower query)
       | none => false) ||
      model.variants.any fun variant =>
        jsIncludes (jsToLower variant.modelNumber) (jsToLower query) ||
        jsIncludes (jsToLower variant.variantName) (jsToLower query)

/-- Quick sanity example kept as a compiled fact. -/
example : parseBrandName "brand_global_en.md" =
    ⟨"Brand (Global)", "brand_global_en"⟩ := by decide

/-! ## Global search: `handleSearch` (src/app/page.tsx lines 154-201) -/

/-- One element of the `allBrands` state consumed by `handleSearch`:
a brand's display name, slug, and parsed models. -/
structure BrandData where
  name : String
  slug : String
  models : List PhoneModel
deriving DecidableEq

/-- A `SearchResult` row pushed by `handleSearch` (src/app/page.tsx
lines 170-177). -/
structure SearchResult where
  brand : String
  brandSlug : String
  mainModelName : String
  modelNumber : String
  variantName : String
  codename : Option String
deriving DecidableEq

/-- The search-related component state `handleSearch` writes through
`setSearchMode` / `setFilteredBrands` / `setSearchResults`. -/
structure SearchState where
  searchMode : String
  filteredBrands : List BrandData
  searchResults : List SearchResult
deriving DecidableEq

/-- The `modelResults` accumulation of `handleSearch` (src/app/page.tsx
lines 165-180): for every brand, for every model matched by
`searchModels`, one result row per variant, in source order. -/
def modelResultsFor (allBrands : List BrandData) (q : String) : List SearchResult :=
  allBrands.flatMap fun brand =>
    (searchModels brand.models q).flatMap fun model =>
      model.variants.map fun variant =>
        ⟨brand.name, brand.slug, model.mainModelName,
         variant.modelNumber, variant.variantName, model.codename⟩

/-- The `brandResults` filter of `handleSearch` (src/app/page.tsx
lines 182-186): brands whose lower-cased name or slug contains the
lower-cased query. -/
def brandResultsFor (allBrands : List BrandData) (q : String) : List BrandData :=
  allBrands.filter fun brand =>
    jsIncludes (jsToLower brand.name) (jsToLower q) ||
    jsIncludes (jsToLower brand.slug) (jsToLower q)

/-- `handleSearch` (src/app/page.tsx lines 154-201), as the state it
produces: empty trimmed query resets to the full brand list; otherwise
model results take precedence when nonempty, then brand results, then the
empty "no results" state. -/
def handleSearch (allBrands : List BrandData) (searchInput : String) : SearchState :=
  if jsTrim searchInput = "" then ⟨"brands", allBrands, []⟩
  else if (modelResultsFor allBrands (jsTrim searchInput)).length > 0 then
    ⟨"models", [], modelResultsFor allBrands (jsTrim searchInput)⟩
  else if (brandResultsFor allBrands (jsTrim searchInput)).length > 0 then
    ⟨"brands", brandResultsFor allBrands (jsTrim searchInput), []⟩
  else ⟨"brands", [], []⟩

/-! ## TieredCache: `CacheManager` (src/unnamed/part_002, and the copy in
src/unnamed/part_001 lines 47-241 which differs only in its default
expiry constant and extra logging) -/

/-- `CacheItem<T>` (src/unnamed/part_002 lines 3-7): `expiry` is the
absolute expiration timestamp. -/
structure CacheItem (T : Type) where
  data : T
  timestamp : Int
  expiry : Int
deriving DecidableEq

/-- Association-list lookup keyed by string equality; the first binding
for a key wins, mirroring a map in which `aset` below replaces bindings. -/
def alookup (k : String) : List (String × α) → Option α
  | [] => none
  | (k', v) :: t => if k' = k then some v else alookup k t

/-- Remove every binding of `k`. -/
def aerase (k : String) : List (String × α) → List (String × α)
  | [] => []
  | (k', v) :: t => if k' = k then aerase k t else (k', v) :: aerase k t

/-- Insert-or-replace, as `Map.prototype.set` / `localStorage.setItem`. -/
def aset (k : String) (v : α) (m : List (String × α)) : List (String × α) :=
  (k, v) :: aerase k m

/-- The mutable state a `CacheManager` instance can reach: its in-memory
`cache` map (the fast tier) and the `localStorage` contents (the durable
tier, holding the serialised items under prefixed keys). -/
structure CacheState (T : Type) where
  mem : List (String × CacheItem T)
  durable : List (String × CacheItem T)
deriving DecidableEq

namespace CacheManager

/-- `DEFAULT_EXPIRY` of src/unnamed/part_002 line 12: 30 minutes. -/
def DEFAULT_EXPIRY_LOCAL : Int := 30 * 60 * 1000

/-- `DEFAULT_EXPIRY` of src/unnamed/part_001 line 56: 24 hours. -/
def DEFAULT_EXPIRY_GLOBAL : Int := 24 * 60 * 60 * 1000

/-- The `localStorage` key for a cache key: `` `seraphim_cache_${key}` ``. -/
def storageKey (k : String) : String :=
  "seraphim_cache_" ++ k

/-- `CacheManager.set` (src/unnamed/part_002 lines 21-37), with the
instance's `DEFAULT_EXPIRY` as the explicit first argument `d`.  The
JavaScript `customExpiry || this.DEFAULT_EXPIRY` falls back to the default
when `customExpiry` is `undefined` (here `none`) or the falsy `0`. -/
def set (d : Int) (S : CacheState T) (now : Int) (k : String) (v : T)
    (customExpiry : Option Int) : CacheState T :=
  let e :=
    match customExpiry with
    | some c => if c = 0 then d else c
    | none => d
  let item : CacheItem T := ⟨v, now, now + e⟩
  ⟨aset k item S.mem, aset (storageKey k) item S.durable⟩

/-- `CacheManager.delete` (src/unnamed/part_002 lines 100-107): remove the
entry from both tiers. -/
def delete (S : CacheState T) (k : String) : CacheState T :=
  ⟨aerase k S.mem, aerase (storageKey k) S.durable⟩

/-- `CacheManager.get` (src/unnamed/part_002 lines 39-68): read the fast
tier, hydrate from the durable tier on a miss (repopulating the fast
tier), then evict from both tiers and report `none` when `Date.now()` is
past the entry's expiry. -/
def get (S : CacheState T) (now : Int) (k : String) : Option T × CacheState T :=
  match alookup k S.mem with
  | some item =>
    if item.expiry < now then (none, delete S k)
    else (some item.data, S)
  | none =>
    match alookup (storageKey k) S.durable with
    | some item =>
      if item.expiry < now then (none, delete ⟨aset k item S.mem, S.durable⟩ k)
      else (some item.data, ⟨aset k item S.mem, S.durable⟩)
    | none => (none, S)

/-- `CacheManager.getForSearch` (src/unnamed/part_002 lines 70-92): the
same two-tier lookup and fast-tier repopulation as `get`, but with no
expiry check at all. -/
def getForSearch (S : CacheState T) (k : String) : Option T × CacheState T :=
  match alookup k S.mem with
  | some item => (some item.data, S)
  | none =>
    match alookup (storageKey k) S.durable with
    | some item => (some item.data, ⟨aset k item S.mem, S.durable⟩)
    | none => (none, S)

/-- `CacheManager.forceSet` (src/unnamed/part_002 lines 94-98): reuses
`set` unconditionally. -/
def forceSet (d : Int) (S : CacheState T) (now : Int) (k : String) (v : T)
    (customExpiry : Option Int) : CacheState T :=
  set d S now k v customExpiry

/-- `CacheManager.clear` (src/unnamed/part_002 lines 109-122): empty the
fast tier and drop every durable key under the `seraphim_cache_` space. -/
def clear (S : CacheState T) : CacheState T :=
  ⟨[], S.durable.filter fun p => !(jsStartsWith p.1 "seraphim_cache_")⟩

/-- The record returned by `getCacheInfo`; the source field `exists` is a
Lean keyword and is rendered `found` here. -/
structure CacheInfo where
  found : Bool
  age : Option Int
  expiresIn : Option Int
deriving DecidableEq

/-- `CacheManager.getCacheInfo` (src/unnamed/part_002 lines 124-136):
reads `this.cache` (the fast tier) only, never the durable tier, and never
mutates or evicts. -/
def getCacheInfo (S : CacheState T) (now : Int) (k : String) : CacheInfo :=
  match alookup k S.mem with
  | none => ⟨false, none, none⟩
  | some item => ⟨true, some (now - item.timestamp), some (item.expiry - now)⟩

/-- `CacheManager.hasDataForSearch` (src/unnamed/part_002 lines 139-141). -/
def hasDataForSearch (S : CacheState T) (k : String) : Bool :=
  (getForSearch S k).1.isSome

end CacheManager

/-! ## Helper lemmas -/

theorem alookup_aerase_self (k : String) (l : List (String × α)) :
    alookup k (aerase k l) = none := by
  induction l with
  | nil => rfl
  | cons p t ih =>
    obtain ⟨k', v⟩ := p
    by_cases h : k' = k
    · simpa [aerase, h] using ih
    · simp [aerase, alookup, h, ih]

theorem alookup_aset_self (k : String) (v : α) (m : List (String × α)) :
    alookup k (aset k v m) = some v := by
  simp [aset, alookup]

theorem searchModels_sublist_aux (models : List PhoneModel) (q : String) :
    List.Sublist (searchModels models q) models := by
  unfold searchModels
  split
  · exact List.Sublist.refl models
  · exact List.filter_sublist models

theorem mem_of_mem_searchModels {models : List PhoneModel} {q : String}
    {m : PhoneModel} (h : m ∈ searchModels models q) : m ∈ models :=
  (searchModels_sublist_aux models q).subset h

theorem modelResultsFor_ne_nil {allBrands : List BrandData} {q : String}
    (hinv : ∀ b ∈ allBrands, ∀ m ∈ b.models, m.variants ≠ [])
    (hex : ∃ b ∈ allBrands, searchModels b.models q ≠ []) :
    modelResultsFor allBrands q ≠ [] := by
  obtain ⟨b, hb, hne⟩ := hex
  obtain ⟨m, hm⟩ := List.exists_mem_of_ne_nil _ hne
  obtain ⟨v, hv⟩ :=
    List.exists_mem_of_ne_nil _ (hinv b hb m (mem_of_mem_searchModels hm))
  have hmem : (⟨b.name, b.slug, m.mainModelName, v.modelNumber, v.variantName,
      m.codename⟩ : SearchResult) ∈ modelResultsFor allBrands q := by
    unfold modelResultsFor
    exact List.mem_flatMap.mpr
      ⟨b, hb, List.mem_flatMap.mpr ⟨m, hm, List.mem_map.mpr ⟨v, hv, rfl⟩⟩⟩
  exact List.ne_nil_of_mem hmem

theorem modelResultsFor_eq_nil {allBrands : List BrandData} {q : String}
    (hall : ∀ b ∈ allBrands, searchModels b.models q = []) :
    modelResultsFor allBrands q = [] := by
  unfold modelResultsFor
  refine List.flatMap_eq_nil_iff.mpr fun b hb => ?_
  rw [hall b hb]
  rfl

theorem parseBrandName_slug_eq (f : String) :
    (parseBrandName f).slug = String.mk (replaceFirst ".md".data f.data) := by
  unfold parseBrandName
  dsimp only
  repeat' split
  all_goals rfl

theorem replaceFirst_md_of_no_dot : ∀ l : List Char, (∀ c ∈ l, ¬ c = '.') →
    replaceFirst ('.' :: 'm' :: 'd' :: []) (l ++ '.' :: 'm' :: 'd' :: []) = l := by
  intro l
  induction l with
  | nil => intro _; decide
  | cons c t ih =>
    intro h
    have hc : (('.' : Char) == c) = false :=
      beq_eq_false_iff_ne.mpr fun e => h c (List.mem_cons_self c t) e.symm
    have ht := ih fun x hx => h x (List.mem_cons_of_mem c hx)
    simp [replaceFirst, List.isPrefixOf, hc, ht]

/-! ## The claims -/

/-- The six-line end-to-end document of the spec's testable properties. -/
def sampleDoc : String :=
  "## Series A\n**[COD1] Phone One:**\n`MN-100`: Base Edition\n`MN-101`: Pro Edition\n**Phone Two:**\n`MN-200`: Standard"

/-- First record the sample document parses to. -/
def phoneOne : PhoneModel :=
  ⟨"Phone One", some "COD1",
   [⟨"MN-100", "Base Edition"⟩, ⟨"MN-101", "Pro Edition"⟩], some "Series A"⟩

/-- Second record the sample document parses to. -/
def phoneTwo : PhoneModel :=
  ⟨"Phone Two", none, [⟨"MN-200", "Standard"⟩], some "Series A"⟩

/-- C1: the six-line sample document parses to exactly the two records
`phoneOne` (codename COD1, series "Series A", two variants) and `phoneTwo`
(no codename, series inherited, one variant) in source order, and on those
records `searchModels` with query "pro" returns only the first record
while query "mn-200" returns only the second. -/
theorem sampleDoc_parse_and_search :
    parseMarkdownContent sampleDoc = [phoneOne, phoneTwo] ∧
    searchModels [phoneOne, phoneTwo] "pro" = [phoneOne] ∧
    searchModels [phoneOne, phoneTwo] "mn-200" = [phoneTwo] := by
  decide

/-- C2 counterexample: on the filename `"a.mdx.md"` the code removes the
first occurrence of `".md"` (yielding slug `"ax.md"`) rather than the
trailing extension (which would yield `"a.mdx"`), so the slug neither
equals the filename minus its trailing extension nor round-trips back to
the source filename. -/
theorem parseBrandName_slug_not_trailing :
    (parseBrandName "a.mdx.md").slug = "ax.md" ∧
    ¬ (parseBrandName "a.mdx.md").slug = "a.mdx" ∧
    ¬ (parseBrandName "a.mdx.md").slug ++ ".md" = "a.mdx.md" := by
  decide

/-- C2 amended: the slug is the filename with the first occurrence of
`".md"` removed; for every filename of the form `base ++ ".md"` whose base
contains no `'.'` (in particular for every base ending in a regional
suffix such as `_cn`, `_en`, `_global_en` or `_all`, which is therefore
retained in the slug), this coincides with removing the trailing extension
and the slug round-trips back to the source filename. -/
theorem parseBrandName_slug_trailing_md (base : String)
    (h : ∀ c ∈ base.data, ¬ c = '.') :
    (parseBrandName (base ++ ".md")).slug = base ∧
    (parseBrandName (base ++ ".md")).slug ++ ".md" = base ++ ".md" := by
  have h3 : (parseBrandName (base ++ ".md")).slug = base := by
    rw [parseBrandName_slug_eq]
    show String.mk
      (replaceFirst ('.' :: 'm' :: 'd' :: []) (base.data ++ '.' :: 'm' :: 'd' :: [])) = base
    rw [replaceFirst_md_of_no_dot base.data h]
  exact ⟨h3, by rw [h3]⟩

/-- C2 witness: the spec's own example filename, suffix retained in the
slug and round-tripping. -/
theorem parseBrandName_slug_trailing_md_witness :
    (parseBrandName ("brand_global_en" ++ ".md")).slug = "brand_global_en" ∧
    (parseBrandName ("brand_global_en" ++ ".md")).slug ++ ".md" =
      "brand_global_en" ++ ".md" :=
  parseBrandName_slug_trailing_md "brand_global_en" (by decide)

/-- C3: after `set k v ttl` with `ttl > 0` at time `t0`, at any time
strictly past `t0 + ttl` a `get` of `k` reports absent and evicts the
entry from both the fast tier and the durable tier, while `getForSearch`
of `k` on the same post-`set` state still returns `v`, since it never
checks expiry. -/
theorem get_expired_evicts_getForSearch_stale {T : Type}
    (d : Int) (S : CacheState T) (t0 : Int) (k : String) (v : T) (ttl now : Int)
    (httl : 0 < ttl) (hnow : t0 + ttl < now) :
    (CacheManager.get (CacheManager.set d S t0 k v (some ttl)) now k).1 = none ∧
    alookup k (CacheManager.get (CacheManager.set d S t0 k v (some ttl)) now k).2.mem
      = none ∧
    alookup (CacheManager.storageKey k)
      (CacheManager.get (CacheManager.set d S t0 k v (some ttl)) now k).2.durable
      = none ∧
    (CacheManager.getForSearch (CacheManager.set d S t0 k v (some ttl)) k).1
      = some v := by
  have hne : ¬ ttl = 0 := by omega
  simp [CacheManager.set, CacheManager.get, CacheManager.getForSearch,
    CacheManager.delete, alookup_aset_self, alookup_aerase_self, hne, hnow]

/-- C3 witness: a concrete expired entry. -/
theorem get_expired_evicts_getForSearch_stale_witness :
    (CacheManager.get
      (CacheManager.set 1800000 (⟨[], []⟩ : CacheState Nat) 1000 "brand_x" 42 (some 50))
      2000 "brand_x").1 = none ∧
    alookup "brand_x"
      (CacheManager.get
        (CacheManager.set 1800000 (⟨[], []⟩ : CacheState Nat) 1000 "brand_x" 42 (some 50))
        2000 "brand_x").2.mem = none ∧
    alookup (CacheManager.storageKey "brand_x")
      (CacheManager.get
        (CacheManager.set 1800000 (⟨[], []⟩ : CacheState Nat) 1000 "brand_x" 42 (some 50))
        2000 "brand_x").2.durable = none ∧
    (CacheManager.getForSearch
      (CacheManager.set 1800000 (⟨[], []⟩ : CacheState Nat) 1000 "brand_x" 42 (some 50))
      "brand_x").1 = some 42 :=
  get_expired_evicts_getForSearch_stale 1800000 ⟨[], []⟩ 1000 "brand_x" 42 50 2000
    (by decide) (by decide)

/-- C4: an entry stored by `set k v ttl` survives clearing of the fast
tier (a process restart): as long as it is not expired, `get` hydrates it
from the durable tier, returns `v`, and repopulates the fast tier with the
hydrated entry. -/
theorem get_hydrates_from_durable {T : Type}
    (d : Int) (S : CacheState T) (t0 : Int) (k : String) (v : T) (ttl now : Int)
    (httl : 0 < ttl) (hnow : now ≤ t0 + ttl) :
    (CacheManager.get
      (⟨[], (CacheManager.set d S t0 k v (some ttl)).durable⟩ : CacheState T)
      now k).1 = some v ∧
    alookup k
      (CacheManager.get
        (⟨[], (CacheManager.set d S t0 k v (some ttl)).durable⟩ : CacheState T)
        now k).2.mem = some ⟨v, t0, t0 + ttl⟩ := by
  have hne : ¬ ttl = 0 := by omega
  have hcond : ¬ (t0 + ttl < now) := not_lt.mpr hnow
  simp [CacheManager.set, CacheManager.get, alookup, alookup_aset_self, hne, hcond]

/-- C4 witness: a concrete restart survivor. -/
theorem get_hydrates_from_durable_witness :
    (CacheManager.get
      (⟨[], (CacheManager.set 1800000 (⟨[], []⟩ : CacheState Nat) 1000 "brand_x" 42
        (some 500)).durable⟩ : CacheState Nat) 1200 "brand_x").1 = some 42 ∧
    alookup "brand_x"
      (CacheManager.get
        (⟨[], (CacheManager.set 1800000 (⟨[], []⟩ : CacheState Nat) 1000 "brand_x" 42
          (some 500)).durable⟩ : CacheState Nat) 1200 "brand_x").2.mem =
      some ⟨42, 1000, 1500⟩ :=
  get_hydrates_from_durable 1800000 ⟨[], []⟩ 1000 "brand_x" 42 500 1200
    (by decide) (by decide)

/-- C5 (code bug): the heading form with a parenthesised codename is never
recognised, because the source regex `^$$([^)]+)$$\s*(.*)` is garbled (its
`$` characters are end anchors): on `**(COD1) Phone One:**` parsing leaves
the codename absent and keeps `"(COD1) Phone One"` whole as the model
name, whereas the equivalent bracket form `**[COD1] Phone One:**` does
extract the codename. -/
theorem parenCodename_never_extracted :
    parseMarkdownContent "**(COD1) Phone One:**\n`MN-100`: Base Edition" =
      [⟨"(COD1) Phone One", none, [⟨"MN-100", "Base Edition"⟩], none⟩] ∧
    parseMarkdownContent "**[COD1] Phone One:**\n`MN-100`: Base Edition" =
      [⟨"Phone One", some "COD1", [⟨"MN-100", "Base Edition"⟩], none⟩] := by
  decide

/-- C6: the parser is a total function of the input text (it is defined
here as a total Lean function with no partiality or failure path, matching
the exception-free source loop): the empty document parses to the empty
record list, and a garbage document with malformed lines is silently
skipped line by line, yielding the empty record list rather than an
error. -/
theorem parseMarkdownContent_total_lenient :
    parseMarkdownContent "" = [] ∧
    parseMarkdownContent "]]garbage** `unclosed\n\n##\n%%$$*:*1:**x" = [] := by
  decide

/-- C7 counterexample: a matching model whose record has no variants
produces no model result rows, so `handleSearch` falls back to brand-level
results even though a model matched the query: model results are not
presented whenever "at least one model or variant matches". -/
theorem handleSearch_brand_fallback_counterexample :
    ¬ searchModels [⟨"Pro Model", none, [], none⟩] "pro" = [] ∧
    (handleSearch [⟨"Pro Brand", "pro-brand", [⟨"Pro Model", none, [], none⟩]⟩]
      "pro").searchMode = "brands" ∧
    (handleSearch [⟨"Pro Brand", "pro-brand", [⟨"Pro Model", none, [], none⟩]⟩]
      "pro").searchResults = [] := by
  decide

/-- C7 amended: over datasets in which every model record has at least one
variant (the ModelRecord invariant the parser guarantees), a non-blank
query shows model results exclusively whenever any model matches, and
brand-level results appear only when no model matches; in particular a
query matching both a model and a brand name yields only model results. -/
theorem handleSearch_model_precedence (allBrands : List BrandData) (q : String)
    (hq : ¬ jsTrim q = "")
    (hinv : ∀ b ∈ allBrands, ∀ m ∈ b.models, m.variants ≠ []) :
    ((∃ b ∈ allBrands, searchModels b.models (jsTrim q) ≠ []) →
      (handleSearch allBrands q).searchMode = "models" ∧
      (handleSearch allBrands q).filteredBrands = [] ∧
      (handleSearch allBrands q).searchResults = modelResultsFor allBrands (jsTrim q)) ∧
    ((∀ b ∈ allBrands, searchModels b.models (jsTrim q) = []) →
      (handleSearch allBrands q).searchMode = "brands" ∧
      (handleSearch allBrands q).searchResults = []) := by
  constructor
  · intro hex
    have hlen : (modelResultsFor allBrands (jsTrim q)).length > 0 :=
      List.length_pos.mpr (modelResultsFor_ne_nil hinv hex)
    unfold handleSearch
    rw [if_neg hq, if_pos hlen]
    exact ⟨rfl, rfl, rfl⟩
  · intro hall
    have hnil := modelResultsFor_eq_nil hall
    unfold handleSearch
    rw [if_neg hq, hnil]
    have hz : ¬ (([] : List SearchResult).length > 0) := by simp
    rw [if_neg hz]
    by_cases hb : (brandResultsFor allBrands (jsTrim q)).length > 0
    · rw [if_pos hb]; exact ⟨rfl, rfl⟩
    · rw [if_neg hb]; exact ⟨rfl, rfl⟩

/-- A one-brand dataset whose brand name and model name both match the
query "phone". -/
def witnessBrand : BrandData :=
  ⟨"Phone Co", "phoneco", [⟨"Phone X", none, [⟨"MN-1", "Basic"⟩], none⟩]⟩

/-- C7 witness: on `witnessBrand` the query "phone" matches both the brand
name and a model, and only model results are shown. -/
theorem handleSearch_model_precedence_witness :
    (handleSearch [witnessBrand] "phone").searchMode = "models" ∧
    (handleSearch [witnessBrand] "phone").filteredBrands = [] ∧
    (handleSearch [witnessBrand] "phone").searchResults =
      modelResultsFor [witnessBrand] (jsTrim "phone") :=
  (handleSearch_model_precedence [witnessBrand] "phone" (by decide) (by decide)).1
    (by decide)

/-- C8: for every record list and every query, `searchModels` returns a
subsequence of its input: each returned record occurs in the input
unmodified, none is duplicated, and relative order is preserved (the
function is either the identity or a `List.filter`). -/
theorem searchModels_stable_subsequence (models : List PhoneModel) (q : String) :
    List.Sublist (searchModels models q) models :=
  searchModels_sublist_aux models q

/-- C9: `getCacheInfo` consults only the fast tier: on any state whose
fast tier misses `k` while the durable tier holds an unexpired item for
it, `getCacheInfo` reports a bare non-existence record with no age or
expiry, even though `get` on the very same state returns the stored
value. -/
theorem getCacheInfo_ignores_durable {T : Type}
    (S : CacheState T) (now : Int) (k : String) (item : CacheItem T)
    (hmem : alookup k S.mem = none)
    (hdur : alookup (CacheManager.storageKey k) S.durable = some item)
    (hexp : now ≤ item.expiry) :
    CacheManager.getCacheInfo S now k = ⟨false, none, none⟩ ∧
    (CacheManager.get S now k).1 = some item.data := by
  have hcond : ¬ (item.expiry < now) := not_lt.mpr hexp
  constructor
  · simp [CacheManager.getCacheInfo, hmem]
  · simp [CacheManager.get, hmem, hdur, hcond]

/-- C9 witness: a durable-only entry is invisible to `getCacheInfo` but
served by `get`. -/
theorem getCacheInfo_ignores_durable_witness :
    CacheManager.getCacheInfo
      (⟨[], [(CacheManager.storageKey "b", ⟨7, 0, 100⟩)]⟩ : CacheState Nat) 50 "b" =
      ⟨false, none, none⟩ ∧
    (CacheManager.get
      (⟨[], [(CacheManager.storageKey "b", ⟨7, 0, 100⟩)]⟩ : CacheState Nat) 50 "b").1 =
      some 7 :=
  getCacheInfo_ignores_durable ⟨[], [(CacheManager.storageKey "b", ⟨7, 0, 100⟩)]⟩
    50 "b" ⟨7, 0, 100⟩ (by decide) (by decide) (by decide)

/-- C10: a `customExpiry` of `0` is falsy in `customExpiry ||
this.DEFAULT_EXPIRY`, so `set` with `0` stores exactly the same state as
`set` with no override — the entry expires at `now + d` for the default
`d`, not immediately — while any non-zero override `c` yields expiry
`now + c`. -/
theorem set_customExpiry_zero_uses_default {T : Type}
    (d : Int) (S : CacheState T) (now : Int) (k : String) (v : T) (c : Int)
    (hc : ¬ c = 0) :
    CacheManager.set d S now k v (some 0) = CacheManager.set d S now k v none ∧
    alookup k (CacheManager.set d S now k v (some 0)).mem = some ⟨v, now, now + d⟩ ∧
    alookup k (CacheManager.set d S now k v (some c)).mem = some ⟨v, now, now + c⟩ := by
  refine ⟨rfl, ?_, ?_⟩
  · simp [CacheManager.set, alookup_aset_self]
  · simp [CacheManager.set, alookup_aset_self, hc]

/-- C10 witness: with the 30-minute default, `set` with `customExpiry = 0`
stores expiry `now + 1800000`, and `set` with `7` stores `now + 7`. -/
theorem set_customExpiry_zero_uses_default_witness :
    CacheManager.set 1800000 (⟨[], []⟩ : CacheState Nat) 100 "k" 37 (some 0) =
      CacheManager.set 1800000 (⟨[], []⟩ : CacheState Nat) 100 "k" 37 none ∧
    alookup "k" (CacheManager.set 1800000 (⟨[], []⟩ : CacheState Nat) 100 "k" 37
      (some 0)).mem = some ⟨37, 100, 1800100⟩ ∧
    alookup "k" (CacheManager.set 1800000 (⟨[], []⟩ : CacheState Nat) 100 "k" 37
      (some 7)).mem = some ⟨37, 100, 107⟩ :=
  set_customExpiry_zero_uses_default 1800000 ⟨[], []⟩ 100 "k" 37 7 (by decide)
